import Mathlib

/-!
Verification of the query classification and prioritization pipeline of the
`monitoramento_oracle` repository.

The Python sources under `functions/` are shallowly embedded:
pure functions become Lean functions, exception-raising code returns
`Except`, the Oracle collaborator becomes a record of lookup functions
(`OracleTableReader`), Python `int` becomes `Int`/`Nat`, Python `float`
arithmetic is modelled over `ℚ`, and Python's stable `sorted` is modelled
by `List.insertionSort` (any stable sort realises the same observable
behaviour).  Python string primitives (`split`, `strip`, `upper`, `in`,
code-point comparison) are reimplemented on `List Char` so that they are
kernel-evaluable.  `hashlib.md5` is implemented in full (RFC 1321) over
`Nat` with explicit reduction mod 2^32.
-/

set_option maxRecDepth 100000

namespace MonOracle

/-! ### Python string primitives -/

/-- Python code-point comparison of strings (`s1 < s2`), on char lists. -/
def strLtB : List Char → List Char → Bool
  | [], [] => false
  | [], _ :: _ => true
  | _ :: _, [] => false
  | a :: as, b :: bs =>
    a.toNat < b.toNat || (a.toNat == b.toNat && strLtB as bs)

/-- Python's non-strict string comparison `a <= b` (code points),
kernel-evaluable; `sorted` orders by this relation. -/
def strLe (a b : String) : Prop :=
  strLtB b.data a.data = false

instance : DecidableRel strLe :=
  fun _ _ => inferInstanceAs (Decidable (_ = false))

theorem strLtB_irrefl : ∀ l : List Char, strLtB l l = false
  | [] => rfl
  | a :: as => by
    simp only [strLtB, strLtB_irrefl as]
    simp

theorem strLtB_eq_of_not_lt : ∀ {l1 l2 : List Char},
    strLtB l1 l2 = false → strLtB l2 l1 = false → l1 = l2
  | [], [], _, _ => rfl
  | [], _ :: _, h1, _ => by simp [strLtB] at h1
  | _ :: _, [], _, h2 => by simp [strLtB] at h2
  | a :: as, b :: bs, h1, h2 => by
    simp only [strLtB, Bool.or_eq_false_iff, Bool.and_eq_false_iff,
      decide_eq_false_iff_not, beq_eq_false_iff_ne, ne_eq] at h1 h2
    have hab : a.toNat = b.toNat := by omega
    have hc : a = b := Char.eq_of_val_eq (UInt32.ext hab)
    subst hc
    rcases h1.2 with h1' | h1'
    · exact absurd rfl h1'
    · rcases h2.2 with h2' | h2'
      · exact absurd rfl h2'
      · rw [strLtB_eq_of_not_lt h1' h2']

theorem strLtB_trans : ∀ {l1 l2 l3 : List Char},
    strLtB l1 l2 = true → strLtB l2 l3 = true → strLtB l1 l3 = true
  | [], _ :: _, _ :: _, _, _ => rfl
  | [], [], _, h1, _ => by simp [strLtB] at h1
  | _ :: _, [], _, h1, _ => by simp [strLtB] at h1
  | [], _ :: _, [], _, h2 => by simp [strLtB] at h2
  | _ :: _, _ :: _, [], _, h2 => by simp [strLtB] at h2
  | a :: as, b :: bs, c :: cs, h1, h2 => by
    simp only [strLtB, Bool.or_eq_true, Bool.and_eq_true, decide_eq_true_eq,
      beq_iff_eq] at h1 h2 ⊢
    rcases h1 with h1 | ⟨hab, h1⟩
    · rcases h2 with h2 | ⟨hbc, h2⟩
      · exact Or.inl (by omega)
      · exact Or.inl (by omega)
    · rcases h2 with h2 | ⟨hbc, h2⟩
      · exact Or.inl (by omega)
      · exact Or.inr ⟨by omega, strLtB_trans h1 h2⟩

theorem strLtB_asymm {l1 l2 : List Char}
    (h1 : strLtB l1 l2 = true) (h2 : strLtB l2 l1 = true) : False := by
  have := strLtB_trans h1 h2
  rw [strLtB_irrefl] at this
  exact Bool.false_ne_true this

instance : IsTotal String strLe := by
  refine ⟨fun a b => ?_⟩
  rcases Bool.eq_false_or_eq_true (strLtB b.data a.data) with h | h
  · rcases Bool.eq_false_or_eq_true (strLtB a.data b.data) with h' | h'
    · exact absurd (strLtB_asymm h h') id
    · exact Or.inr h'
  · exact Or.inl h

instance : IsTrans String strLe := by
  refine ⟨fun a b c h1 h2 => ?_⟩
  have h1' : strLtB b.data a.data = false := h1
  have h2' : strLtB c.data b.data = false := h2
  show strLtB c.data a.data = false
  rcases Bool.eq_false_or_eq_true (strLtB c.data a.data) with h | h
  swap
  · exact h
  exfalso
  rcases Bool.eq_false_or_eq_true (strLtB a.data b.data) with hab | hab
  · rcases Bool.eq_false_or_eq_true (strLtB b.data c.data) with hbc | hbc
    · exact strLtB_asymm (strLtB_trans hab hbc) h
    · have heq2 := strLtB_eq_of_not_lt hbc h2'
      rw [heq2] at hab
      exact strLtB_asymm hab h
  · have heq := strLtB_eq_of_not_lt hab h1'
    rcases Bool.eq_false_or_eq_true (strLtB b.data c.data) with hbc | hbc
    · rw [heq] at h
      exact strLtB_asymm hbc h
    · have heq2 := strLtB_eq_of_not_lt hbc h2'
      rw [heq, heq2, strLtB_irrefl] at h
      exact Bool.false_ne_true h

instance : IsAntisymm String strLe := by
  refine ⟨fun a b h1 h2 => ?_⟩
  exact String.ext (strLtB_eq_of_not_lt h2 h1)

/-- Does `pat` occur at the start of `l`?  (Used by the splitter.) -/
def matchesAt : List Char → List Char → Bool
  | [], _ => true
  | _ :: _, [] => false
  | p :: ps, c :: cs => p == c && matchesAt ps cs

theorem matchesAt_length {p l : List Char} (h : matchesAt p l = true) :
    p.length ≤ l.length := by
  induction p generalizing l with
  | nil => simp
  | cons a as ih =>
    cases l with
    | nil => simp [matchesAt] at h
    | cons c cs =>
      simp only [matchesAt, Bool.and_eq_true] at h
      simpa using ih h.2

/-- Worker for `pySplit`: `cur` is the reversed current token.  The fuel
argument (structural recursion, kernel-evaluable) is initialised to the
input length; with a nonempty separator every step consumes at least one
character, so the fuel-exhausted branch is unreachable. -/
def splitGo (sep : List Char) : Nat → List Char → List Char → List (List Char)
  | _, cur, [] => [cur.reverse]
  | 0, cur, l => [cur.reverse ++ l]
  | fuel + 1, cur, c :: rest =>
    if matchesAt sep (c :: rest) then
      cur.reverse :: splitGo sep fuel [] (List.drop sep.length (c :: rest))
    else
      splitGo sep fuel (c :: cur) rest

/-- Python `s.split(sep)` for a nonempty separator. -/
def pySplit (s sep : String) : List String :=
  if sep.data = [] then [s]
  else (splitGo sep.data s.data.length [] s.data).map String.mk

/-- Python `pat in s` (membership of a nonempty substring). -/
def pyContains (s pat : String) : Bool :=
  (pySplit s pat).length != 1

/-- Python `s.upper()` (ASCII case mapping). -/
def pyUpper (s : String) : String :=
  String.mk (s.data.map Char.toUpper)

/-- Whitespace characters removed by Python `str.strip()`. -/
def isPySpace (c : Char) : Bool :=
  c == ' ' || c == '\t' || c == '\n' || c == '\r' || c == '\x0b' || c == '\x0c'

/-- Python `s.strip()`. -/
def pyStrip (s : String) : String :=
  String.mk (((s.data.dropWhile isPySpace).reverse.dropWhile isPySpace).reverse)

/-- Python `s.replace("(", "").replace(")", "")`. -/
def removeParens (s : String) : String :=
  String.mk (s.data.filter (fun c => !(c == '(' || c == ')')))

/-- Worker for `dedupFirst`, carrying the elements already seen. -/
def dedupAux (seen : List String) : List String → List String
  | [] => []
  | x :: xs => if x ∈ seen then dedupAux seen xs else x :: dedupAux (x :: seen) xs

/-- Keep the first occurrence of each element (Python `set` membership
semantics; iteration order of a Python `set` is unspecified, so any fixed
dedup order is a sound model wherever the order is not observed). -/
def dedupFirst (l : List String) : List String :=
  dedupAux [] l

/-- Python `sep.join(l)`. -/
def joinSep : String → List String → String
  | _, [] => ""
  | _, [s] => s
  | sep, s :: t :: rest => s ++ sep ++ joinSep sep (t :: rest)

/-- Python `str(l)` for a list of plain (quote- and escape-free) strings:
`"['a', 'b']"`. -/
def pyListRepr (l : List String) : String :=
  "[" ++ joinSep ", " (l.map (fun s => "'" ++ s ++ "'")) ++ "]"

/-! ### Python numeric rounding

Python's `round` uses banker's rounding (round half to even); the repo
always rounds to two decimal places. -/

/-- Round half to even, on `ℚ`, to an integer.  (`Rat.floor` is used
rather than `⌊·⌋` so that the definition evaluates inside the kernel.) -/
def bankRound (x : ℚ) : ℤ :=
  let n := x.floor
  let r := x - n
  if r < 1/2 then n
  else if 1/2 < r then n + 1
  else if n % 2 = 0 then n else n + 1

/-- Python `round(x, 2)`. -/
def pyRound2 (x : ℚ) : ℚ :=
  (bankRound (x * 100) : ℚ) / 100

theorem ratFloor_eq_floor (x : ℚ) : x.floor = ⌊x⌋ :=
  (Rat.floor_def' x).trans Rat.floor_def.symm

theorem bankRound_intCast (m : ℤ) : bankRound (m : ℚ) = m := by
  have hfl : ((m : ℚ)).floor = m := by
    rw [ratFloor_eq_floor]
    exact Int.floor_intCast m
  simp only [bankRound, hfl]
  norm_num

/-- `round(x, 2)` is the identity whenever `100 * x` is an integer. -/
theorem pyRound2_of_mul_hundred_int (x : ℚ) (m : ℤ) (h : x * 100 = (m : ℚ)) :
    pyRound2 x = x := by
  have : pyRound2 x = (bankRound (m : ℚ) : ℚ) / 100 := by
    simp [pyRound2, h]
  rw [this, bankRound_intCast, ← h]
  field_simp

/-! ### MD5 (RFC 1321), over `Nat` with explicit reduction mod `2^32` -/

/-- The 64 MD5 sine-derived constants. -/
def md5K : List Nat :=
  [0xd76aa478, 0xe8c7b756, 0x242070db, 0xc1bdceee,
   0xf57c0faf, 0x4787c62a, 0xa8304613, 0xfd469501,
   0x698098d8, 0x8b44f7af, 0xffff5bb1, 0x895cd7be,
   0x6b901122, 0xfd987193, 0xa679438e, 0x49b40821,
   0xf61e2562, 0xc040b340, 0x265e5a51, 0xe9b6c7aa,
   0xd62f105d, 0x02441453, 0xd8a1e681, 0xe7d3fbc8,
   0x21e1cde6, 0xc33707d6, 0xf4d50d87, 0x455a14ed,
   0xa9e3e905, 0xfcefa3f8, 0x676f02d9, 0x8d2a4c8a,
   0xfffa3942, 0x8771f681, 0x6d9d6122, 0xfde5380c,
   0xa4beea44, 0x4bdecfa9, 0xf6bb4b60, 0xbebfbc70,
   0x289b7ec6, 0xeaa127fa, 0xd4ef3085, 0x04881d05,
   0xd9d4d039, 0xe6db99e5, 0x1fa27cf8, 0xc4ac5665,
   0xf4292244, 0x432aff97, 0xab9423a7, 0xfc93a039,
   0x655b59c3, 0x8f0ccc92, 0xffeff47d, 0x85845dd1,
   0x6fa87e4f, 0xfe2ce6e0, 0xa3014314, 0x4e0811a1,
   0xf7537e82, 0xbd3af235, 0x2ad7d2bb, 0xeb86d391]

/-- The 64 MD5 per-round left-rotation amounts. -/
def md5S : List Nat :=
  [7, 12, 17, 22, 7, 12, 17, 22, 7, 12, 17, 22, 7, 12, 17, 22,
   5, 9, 14, 20, 5, 9, 14, 20, 5, 9, 14, 20, 5, 9, 14, 20,
   4, 11, 16, 23, 4, 11, 16, 23, 4, 11, 16, 23, 4, 11, 16, 23,
   6, 10, 15, 21, 6, 10, 15, 21, 6, 10, 15, 21, 6, 10, 15, 21]

def not32 (x : Nat) : Nat := 4294967295 ^^^ x

def rotl32 (x n : Nat) : Nat :=
  ((x <<< n) % 4294967296) ||| (x >>> (32 - n))

structure MD5State where
  a : Nat
  b : Nat
  c : Nat
  d : Nat

def md5Init : MD5State :=
  ⟨0x67452301, 0xefcdab89, 0x98badcfe, 0x10325476⟩

/-- Word `g` (little-endian 32-bit) of a 64-byte chunk. -/
def md5Word (chunk : List Nat) (g : Nat) : Nat :=
  chunk.getD (4 * g) 0 + 256 * chunk.getD (4 * g + 1) 0 +
    65536 * chunk.getD (4 * g + 2) 0 + 16777216 * chunk.getD (4 * g + 3) 0

def md5Round (chunk : List Nat) (st : MD5State) (i : Nat) : MD5State :=
  let fg : Nat × Nat :=
    if i < 16 then ((st.b &&& st.c) ||| (not32 st.b &&& st.d), i)
    else if i < 32 then ((st.d &&& st.b) ||| (not32 st.d &&& st.c), (5 * i + 1) % 16)
    else if i < 48 then (st.b ^^^ st.c ^^^ st.d, (3 * i + 5) % 16)
    else (st.c ^^^ (st.b ||| not32 st.d), (7 * i) % 16)
  let f := (fg.1 + st.a + md5K.getD i 0 + md5Word chunk fg.2) % 4294967296
  ⟨st.d, (st.b + rotl32 f (md5S.getD i 0)) % 4294967296, st.b, st.c⟩

def md5Chunk (st : MD5State) (chunk : List Nat) : MD5State :=
  let e := (List.range 64).foldl (md5Round chunk) st
  ⟨(st.a + e.a) % 4294967296, (st.b + e.b) % 4294967296,
   (st.c + e.c) % 4294967296, (st.d + e.d) % 4294967296⟩

/-- 8 little-endian bytes of a 64-bit length value. -/
def le8 (n : Nat) : List Nat :=
  [n % 256, n / 256 % 256, n / 65536 % 256, n / 16777216 % 256,
   n / 4294967296 % 256, n / 1099511627776 % 256,
   n / 281474976710656 % 256, n / 72057594037927936 % 256]

/-- MD5 padding: `0x80`, zeros to 56 mod 64, then the bit length. -/
def md5Pad (m : List Nat) : List Nat :=
  m ++ [0x80] ++ List.replicate ((119 - m.length % 64) % 64) 0 ++
    le8 ((8 * m.length) % 18446744073709551616)

/-- Split into 64-byte chunks; fuel-based structural recursion (the fuel,
initialised to the length, always suffices since each step removes at
least one element). -/
def toChunksAux : Nat → List Nat → List (List Nat)
  | _, [] => []
  | 0, _ => []
  | fuel + 1, c :: cs => (c :: cs).take 64 :: toChunksAux fuel ((c :: cs).drop 64)

def toChunks (l : List Nat) : List (List Nat) :=
  toChunksAux l.length l

/-- 4 little-endian bytes of a 32-bit word. -/
def wordLE (w : Nat) : List Nat :=
  [w % 256, w / 256 % 256, w / 65536 % 256, w / 16777216 % 256]

/-- The 16-byte MD5 digest of a byte sequence. -/
def md5Bytes (msg : List Nat) : List Nat :=
  let st := (toChunks (md5Pad msg)).foldl md5Chunk md5Init
  wordLE st.a ++ wordLE st.b ++ wordLE st.c ++ wordLE st.d

def hexDigitChar (n : Nat) : Char :=
  if n < 10 then Char.ofNat (48 + n) else Char.ofNat (87 + n)

def byteHex (b : Nat) : List Char :=
  [hexDigitChar (b / 16 % 16), hexDigitChar (b % 16)]

/-- UTF-8 encoding of one character. -/
def utf8Char (c : Char) : List Nat :=
  let n := c.toNat
  if n < 128 then [n]
  else if n < 2048 then [192 ||| (n >>> 6), 128 ||| (n &&& 63)]
  else if n < 65536 then
    [224 ||| (n >>> 12), 128 ||| ((n >>> 6) &&& 63), 128 ||| (n &&& 63)]
  else
    [240 ||| (n >>> 18), 128 ||| ((n >>> 12) &&& 63),
     128 ||| ((n >>> 6) &&& 63), 128 ||| (n &&& 63)]

/-- UTF-8 encoding of a string (Python `s.encode()`). -/
def utf8 (s : String) : List Nat :=
  s.data.flatMap utf8Char

/-- Python `hashlib.md5(s.encode()).hexdigest()`. -/
def md5Hex (s : String) : String :=
  String.mk ((md5Bytes (utf8 s)).flatMap byteHex)

example : md5Hex "abc" = "900150983cd24fb0d6963f7d28e17f72" := by decide

/-! ### `functions/utils.py` — `SQLParser`

`extract_tables` delegates to the external `sql_metadata.Parser` library
(an external collaborator, passed here as a function that may fail) and
catches every exception, degrading to `[]`.  `extract_where_conditions`
is self-contained string processing wrapped in a catch-all; its only
failure point is the `[1]` index after `split(" WHERE ")`, which raises
when the case-insensitive guard passed but the case-sensitive split found
no separator.  Both wrappers return `Except` so that "never raises" is an
actual statement about the embedded code rather than a typing artifact. -/

/-- Body of `SQLParser.extract_tables` (the `try` block): call the
external parser, which may raise. -/
def extractTablesBody (parser : String → Except String (List String))
    (sql : String) : Except String (List String) :=
  parser sql

/-- `SQLParser.extract_tables`: the `try/except` wrapper around the
external parser call. -/
def extractTables (parser : String → Except String (List String))
    (sql : String) : Except String (List String) :=
  match extractTablesBody parser sql with
  | .ok ts => .ok ts
  | .error _ => .ok []

/-- One iteration of the condition loop of `extract_where_conditions`:
strip, drop empties, keep the first `" OR "` disjunct, drop parentheses,
drop if empty. -/
def processCondition (condition : String) : Option String :=
  let c := pyStrip condition
  if c = "" then none
  else
    let m := pyStrip (((pySplit c " OR ").headD ""))
    let m := removeParens m
    if m = "" then none else some m

/-- Body of `SQLParser.extract_where_conditions` (the `try` block).  The
`.error` branch is the `IndexError` of `sql_text.split(" WHERE ")[1]`. -/
def extractWhereBody (sql : String) : Except String (List String) :=
  if pyContains (pyUpper sql) " WHERE " = false then .ok []
  else
    match pySplit sql " WHERE " with
    | [] => .error "list index out of range"
    | [_] => .error "list index out of range"
    | _ :: part :: _ =>
      let wherePart := (pySplit part ";").headD ""
      .ok ((pySplit wherePart " AND ").filterMap processCondition)

/-- `SQLParser.extract_where_conditions`: the `try/except` wrapper. -/
def extractWhereConditions (sql : String) : Except String (List String) :=
  match extractWhereBody sql with
  | .ok cs => .ok cs
  | .error _ => .ok []

/-! ### The Oracle collaborator

`db_utils.OracleTableReader` is I/O glue (out of the specified core); it
is modelled as a record of the lookups the core consumes.  Each
`@handle_db_errors`-decorated method returns `None` on a database error,
hence the `Option` results; `execute_query` for the fixed FTS candidate
statement is specialised to the `ftsRows` field.  `is_connected` is a
plain attribute check in Python but is mocked to raise in the repo's own
tests, so it is modelled as `Except`. -/

structure OracleTableReader where
  isConnected : Except String Bool
  ftsRows : Option (List (String × String × ℤ × ℤ))
  getTableSize : String → Option ℚ
  getTableSchema : String → Option String
  getExistingIndexes : String → List String

/-! ### `functions/query_monitor.py` -/

/-- A parsed FTS query dictionary, as built by `identify_fts_queries`. -/
structure MonitorQuery where
  sql_id : String
  sql_text : String
  executions : ℤ
  elapsed_time : ℤ
  tables : List String
  where_conditions : List String
  schema : Option String
deriving DecidableEq

/-- `_create_query_signature`: md5 hex digest of
`f"{sorted(tables)} WHERE {sorted(conditions)}"`. -/
def createQuerySignature (tables conditions : List String) : String :=
  md5Hex (pyListRepr (tables.insertionSort strLe) ++ " WHERE " ++
    pyListRepr (conditions.insertionSort strLe))

/-- A query group dictionary.  `avg_exec_time` is absent until
finalization in Python; it is carried here from the start with value 0
(matching `priority_score`, which Python initialises to 0 as well). -/
structure QueryGroup where
  group_key : String
  sample_sql : String
  normalized_key : String
  count : ℕ
  total_exec_time : ℤ
  tables : List String
  schemas : List String
  where_conditions : List String
  avg_exec_time : ℚ
  priority_score : ℚ
  sql_ids : List String
deriving DecidableEq

/-- `_initialize_query_group`. -/
def initializeQueryGroup (q : MonitorQuery) (signature : String) : QueryGroup where
  group_key := signature
  sample_sql := q.sql_text
  normalized_key := pyListRepr q.tables ++ " WHERE " ++ pyListRepr q.where_conditions
  count := 0
  total_exec_time := 0
  tables := dedupFirst q.tables
  schemas := []
  where_conditions := dedupFirst q.where_conditions
  avg_exec_time := 0
  priority_score := 0
  sql_ids := []

/-- `_update_group_stats`. -/
def updateGroupStats (g : QueryGroup) (q : MonitorQuery) : QueryGroup :=
  { g with
    count := g.count + 1
    total_exec_time := g.total_exec_time + q.elapsed_time
    schemas :=
      match q.schema with
      | some s => if s ≠ "" ∧ s ∉ g.schemas then g.schemas ++ [s] else g.schemas
      | none => g.schemas
    sql_ids := g.sql_ids ++ [q.sql_id] }

/-- The signature under which a query is grouped. -/
def signatureOfQuery (q : MonitorQuery) : String :=
  createQuerySignature q.tables q.where_conditions

/-- One iteration of the grouping loop: create the group on first sight
(Python dicts preserve insertion order, hence the ordered association
list), then fold the query's statistics in. -/
def addQueryToGroups (gs : List QueryGroup) (q : MonitorQuery) : List QueryGroup :=
  let signature := signatureOfQuery q
  if gs.any (fun g => g.group_key == signature) then
    gs.map (fun g => if g.group_key == signature then updateGroupStats g q else g)
  else
    gs ++ [updateGroupStats (initializeQueryGroup q signature) q]

/-- The accumulation phase of `group_similar_queries`: all queries folded
in, in input order. -/
def accumulateGroups (queries : List MonitorQuery) : List QueryGroup :=
  queries.foldl addQueryToGroups []

/-- `_calculate_priority_score`. -/
def calculatePriorityScore (g : QueryGroup) : ℚ :=
  pyRound2 ((g.count : ℚ) * (3/5) + ((g.total_exec_time : ℚ) / 1000) * (2/5))

/-- The finalization step of `group_similar_queries`:
`avg_exec_time = total_exec_time / count` and the priority score. -/
def finalizeGroup (g : QueryGroup) : QueryGroup :=
  { g with
    avg_exec_time := (g.total_exec_time : ℚ) / (g.count : ℚ)
    priority_score := calculatePriorityScore g }

/-- The finalized groups, still in first-seen (insertion) order. -/
def finalizedGroups (queries : List MonitorQuery) : List QueryGroup :=
  (accumulateGroups queries).map finalizeGroup

/-- The sort relation of `sorted(..., key=lambda x: x["priority_score"],
reverse=True)`: descending by score; a stable sort under this relation is
exactly Python's. -/
def groupGE (a b : QueryGroup) : Prop :=
  b.priority_score ≤ a.priority_score

instance : DecidableRel groupGE :=
  fun a b => inferInstanceAs (Decidable (_ ≤ _))

instance : IsTotal QueryGroup groupGE :=
  ⟨fun a b => le_total b.priority_score a.priority_score⟩

instance : IsTrans QueryGroup groupGE :=
  ⟨fun _ _ _ h1 h2 => le_trans h2 h1⟩

/-- `group_similar_queries`. -/
def groupSimilarQueries (queries : List MonitorQuery) : List QueryGroup :=
  (finalizedGroups queries).insertionSort groupGE

/-- `identify_fts_queries`: on a database failure `execute_query` returns
`None` (the decorator catches), which the falsy check folds together with
the empty result into `[]`. -/
def identifyFtsQueries (r : OracleTableReader)
    (parser : String → Except String (List String)) : List MonitorQuery :=
  match r.ftsRows with
  | none => []
  | some rows =>
    rows.map (fun row =>
      let tables := (extractTables parser row.2.1).toOption.getD []
      let conditions := (extractWhereConditions row.2.1).toOption.getD []
      { sql_id := row.1
        sql_text := row.2.1
        executions := row.2.2.1
        elapsed_time := row.2.2.2
        tables := tables
        where_conditions := conditions
        schema := match tables with | [] => none | t :: _ => r.getTableSchema t })

/-! ### `functions/table_analysis.py` -/

/-- The `TableInfo` `TypedDict`: `indexes` is `None` when the lookup
returned an empty list (`indexes if indexes else None`). -/
structure TableInfoT where
  table : String
  size_mb : ℚ
  schema : Option String
  indexes : Option (List String)
deriving DecidableEq

/-- The `ClassificationResult` `TypedDict`. -/
structure ClassificationResult where
  T1 : List TableInfoT
  T2 : List TableInfoT

/-- The deduplicated, sorted table universe of `classify_tables`:
`sorted({table.upper() for query in queries for table in query["tables"]
if table.strip()})`.  The input is the `tables` field of each query
dictionary. -/
def tableUniverse (queryTables : List (List String)) : List String :=
  (dedupFirst (((queryTables.flatMap id).filter
    (fun t => pyStrip t ≠ "")).map pyUpper)).insertionSort strLe

/-- The first half of the classification loop body: look up the size
(a failed lookup skips the table — the decorator turns database errors
into `None`) and assemble the `TableInfo` entry
(`indexes if indexes else None`). -/
def classifiedInfo (r : OracleTableReader) (t : String) : Option TableInfoT :=
  match r.getTableSize t with
  | none => none
  | some size => some
      { table := t
        size_mb := size
        schema := r.getTableSchema t
        indexes := match r.getExistingIndexes t with
          | [] => none
          | idx => some idx }

/-- One iteration of the classification loop: the looked-up entry lands
in `T1` when `size < threshold`, else in `T2`. -/
def classifyStep (r : OracleTableReader) (threshold : ℚ)
    (acc : ClassificationResult) (t : String) : ClassificationResult :=
  match classifiedInfo r t with
  | none => acc
  | some info =>
    if info.size_mb < threshold then { acc with T1 := acc.T1 ++ [info] }
    else { acc with T2 := acc.T2 ++ [info] }

/-- `classify_tables` (the Python default for `size_threshold` is 10.0). -/
def classifyTables (r : OracleTableReader) (queryTables : List (List String))
    (threshold : ℚ) : ClassificationResult :=
  (tableUniverse queryTables).foldl (classifyStep r threshold) ⟨[], []⟩

/-! ### `functions/performance_improvement.py` -/

/-- A query dictionary as consumed by `evaluate_performance` and
`_estimate_gain`; `.get` defaults are applied at the use sites. -/
structure PIQuery where
  sql_id : Option String
  tables : List String
  elapsed_time : Option ℤ
  schema : Option String
deriving DecidableEq

/-- The dictionary returned by `_estimate_gain`. -/
structure GainEstimate where
  estimated_gain_percent : ℚ
  old_time : ℚ
  new_time : ℚ
  schema : Option String
  sql_id : Option String

/-- `_estimate_gain`: rejects a negative table size (`ValueError`),
clamps the elapsed time to at least 1 (defaulting a missing value to
100), and applies the size-band gain factor 0.6 / 0.4 / 0.2. -/
def estimateGain (q : PIQuery) (table_size_mb : ℚ) : Except String GainEstimate :=
  if table_size_mb < 0 then .error "table_size_mb deve ser um número positivo"
  else
    let base : ℤ := max 1 (q.elapsed_time.getD 100)
    let gainFactor : ℚ :=
      if table_size_mb < 10 then 3/5 else if table_size_mb < 50 then 2/5 else 1/5
    .ok
      { estimated_gain_percent := pyRound2 (gainFactor * 100)
        old_time := (base : ℚ)
        new_time := pyRound2 ((base : ℚ) * (1 - gainFactor))
        schema := q.schema
        sql_id := q.sql_id }

/-- A table entry of the classification dictionary as read by
`evaluate_performance` (`table_info.get("table")`,
`table_info.get("size_mb", 0)`). -/
structure TableEntry where
  table : Option String
  size_mb : Option ℚ
deriving DecidableEq

/-- The input dictionary of classified tables
(`tables.get("T1", [])`, `tables.get("T2", [])`). -/
structure TablesDict where
  T1 : List TableEntry
  T2 : List TableEntry

/-- A solution dictionary appended by `evaluate_performance`.  The
`queries_affected` / `avg_gain_percent` keys exist only for T2 entries. -/
structure Suggestion where
  table : String
  size_mb : ℚ
  category : String
  suggestion : String
  existing_indexes : List String
  priority_score : ℚ
  impact : String
  queries_affected : Option (List String)
  avg_gain_percent : Option ℚ
deriving DecidableEq

/-- The T1 loop body: skip nameless entries, otherwise suggest an index
(or note the existing one). -/
def processT1 (r : OracleTableReader) (t : TableEntry) : Option Suggestion :=
  match t.table with
  | none => none
  | some name =>
    if name = "" then none
    else
      let idx := r.getExistingIndexes name
      some
        { table := name
          size_mb := t.size_mb.getD 0
          category := "T1"
          suggestion := if idx = [] then "criar índice" else "índice já existe"
          existing_indexes := idx
          priority_score := if idx = [] then 8 else 2
          impact := if idx = [] then "Alta" else "Baixa"
          queries_affected := none
          avg_gain_percent := none }

/-- Sum of `_estimate_gain(q, size)["estimated_gain_percent"]` over a
list of queries; an estimator failure (negative size) propagates, as the
raised `ValueError` does in Python. -/
def sumGainPercents (qs : List PIQuery) (size : ℚ) : Except String ℚ :=
  qs.foldl
    (fun acc q => acc.bind (fun s => (estimateGain q size).map
      (fun g => s + g.estimated_gain_percent)))
    (.ok 0)

/-- The T2 loop body.  `gain` is the mean estimated percentage over the
queries touching the table, or 0 when none do (in which case the
generator is never evaluated, so no estimator error can occur). -/
def processT2 (r : OracleTableReader) (qs : List PIQuery) (t : TableEntry) :
    Except String (Option Suggestion) :=
  match t.table with
  | none => .ok none
  | some name =>
    if name = "" then .ok none
    else
      let size := t.size_mb.getD 0
      let idx := r.getExistingIndexes name
      let relevant := qs.filter (fun q => name ∈ q.tables)
      let gainE : Except String ℚ :=
        if relevant.length = 0 then .ok 0
        else (sumGainPercents relevant size).map (fun s => s / relevant.length)
      gainE.map (fun gain => some
        { table := name
          size_mb := size
          category := "T2"
          suggestion :=
            if idx = [] then "considerar índice" else "refatorar query ou particionar"
          existing_indexes := idx
          priority_score := if gain > 20 then 9 else if gain > 0 then 7 else 5
          impact := if gain > 20 then "Crítico" else if gain > 0 then "Médio" else "Baixo"
          queries_affected := some (relevant.filterMap (fun q =>
            match q.sql_id with
            | none => none
            | some i => if i = "" then none else some i))
          avg_gain_percent := some (pyRound2 gain) })

/-- The T1 `for` loop, appending to the accumulated solution list. -/
def evalT1Loop (r : OracleTableReader) :
    List TableEntry → List Suggestion → List Suggestion
  | [], acc => acc
  | t :: ts, acc =>
    match processT1 r t with
    | none => evalT1Loop r ts acc
    | some s => evalT1Loop r ts (acc ++ [s])

/-- The T2 `for` loop; an estimator error aborts the whole evaluation
(re-raised as `RuntimeError` by the outer handler). -/
def evalT2Loop (r : OracleTableReader) (qs : List PIQuery) :
    List TableEntry → List Suggestion → Except String (List Suggestion)
  | [], acc => .ok acc
  | t :: ts, acc =>
    match processT2 r qs t with
    | .error e => .error e
    | .ok none => evalT2Loop r qs ts acc
    | .ok (some s) => evalT2Loop r qs ts (acc ++ [s])

/-- `evaluate_performance`.  An exception while checking the connection
propagates as a `RuntimeError`; an unavailable connection yields an empty
solution list; `queries or []` defaults a missing query list. -/
def evaluatePerformance (r : OracleTableReader) (tables : TablesDict)
    (queries : Option (List PIQuery)) : Except String (List Suggestion) :=
  match r.isConnected with
  | .error e => .error ("Erro ao verificar conexão com o banco: " ++ e)
  | .ok false => .ok []
  | .ok true =>
    evalT2Loop r (queries.getD []) tables.T2 (evalT1Loop r tables.T1 [])

/-! ### Helper lemmas -/

theorem flatMap_byteHex_length (l : List Nat) :
    (l.flatMap byteHex).length = 2 * l.length := by
  induction l with
  | nil => simp
  | cons b bs ih => simp [byteHex, ih]; omega

theorem md5Bytes_length (m : List Nat) : (md5Bytes m).length = 16 := by
  simp [md5Bytes, wordLE]

theorem md5Hex_length (s : String) : (md5Hex s).length = 32 := by
  show (md5Hex s).data.length = 32
  simp only [md5Hex]
  rw [flatMap_byteHex_length, md5Bytes_length]

theorem hexDigitChar_mod_mem (n : Nat) :
    hexDigitChar (n % 16) ∈ ("0123456789abcdef").data := by
  have h : n % 16 < 16 := Nat.mod_lt _ (by norm_num)
  have hall : ∀ m : Fin 16, hexDigitChar m.val ∈ ("0123456789abcdef").data := by decide
  exact hall ⟨n % 16, h⟩

theorem md5Hex_chars (s : String) :
    ∀ c ∈ (md5Hex s).data, c ∈ ("0123456789abcdef").data := by
  intro c hc
  rw [show (md5Hex s).data = (md5Bytes (utf8 s)).flatMap byteHex from rfl] at hc
  rw [List.mem_flatMap] at hc
  obtain ⟨b, _, hcb⟩ := hc
  simp only [byteHex, List.mem_cons, List.not_mem_nil, or_false] at hcb
  rcases hcb with h | h
  · rw [h]; exact hexDigitChar_mod_mem (b / 16)
  · rw [h]; exact hexDigitChar_mod_mem b

/-- Sorting by `strLe` is permutation-invariant (the relation is total,
transitive and antisymmetric). -/
theorem insertionSort_strLe_perm_eq {l1 l2 : List String} (h : l1.Perm l2) :
    l1.insertionSort strLe = l2.insertionSort strLe :=
  List.eq_of_perm_of_sorted
    ((List.perm_insertionSort strLe l1).trans
      (h.trans (List.perm_insertionSort strLe l2).symm))
    (List.sorted_insertionSort strLe l1)
    (List.sorted_insertionSort strLe l2)

/-! ### Claim theorems -/

/-- C8: for any two pairs of table/predicate lists that are permutations
of each other, `_create_query_signature` returns the same string, and the
result is a fixed-length (32-character) hexadecimal string. -/
theorem c8_signature_order_independent (t1 t2 p1 p2 : List String)
    (ht : t1.Perm t2) (hp : p1.Perm p2) :
    createQuerySignature t1 p1 = createQuerySignature t2 p2 ∧
    (createQuerySignature t1 p1).length = 32 ∧
    ∀ c ∈ (createQuerySignature t1 p1).data, c ∈ ("0123456789abcdef").data := by
  refine ⟨?_, md5Hex_length _, md5Hex_chars _⟩
  unfold createQuerySignature
  rw [insertionSort_strLe_perm_eq ht, insertionSort_strLe_perm_eq hp]

/-- C8 witness: the spec's own example, instantiated. -/
theorem c8_witness :
    createQuerySignature ["A", "B"] ["x"] = createQuerySignature ["B", "A"] ["x"] ∧
    (createQuerySignature ["A", "B"] ["x"]).length = 32 :=
  have h := c8_signature_order_independent ["A", "B"] ["B", "A"] ["x"] ["x"]
    (List.Perm.swap "B" "A" []) (List.Perm.refl _)
  ⟨h.1, h.2.1⟩

/-- C9: for every input string the feature extractor's table extraction
and WHERE-condition extraction never raise: both always produce an `ok`
result, and any internal failure (a parser exception, or the `[1]` index
error after the case-sensitive split) degrades to the empty list. -/
theorem c9_extractor_never_fails
    (parser : String → Except String (List String)) (sql : String) :
    (∃ ts, extractTables parser sql = Except.ok ts) ∧
    (∃ cs, extractWhereConditions sql = Except.ok cs) ∧
    (∀ e, parser sql = Except.error e → extractTables parser sql = Except.ok []) ∧
    (∀ e, extractWhereBody sql = Except.error e →
      extractWhereConditions sql = Except.ok []) := by
  refine ⟨?_, ?_, ?_, ?_⟩
  · unfold extractTables extractTablesBody
    cases parser sql <;> exact ⟨_, rfl⟩
  · unfold extractWhereConditions
    cases extractWhereBody sql <;> exact ⟨_, rfl⟩
  · intro e he
    unfold extractTables extractTablesBody
    rw [he]
  · intro e he
    unfold extractWhereConditions
    rw [he]

/-- A parser that always fails, standing in for `sql_metadata.Parser` on
malformed input. -/
def failParser : String → Except String (List String) :=
  fun _ => Except.error "parse error"

/-- C9 witness: a failing parser and a query whose lower-case `where`
passes the case-insensitive guard but defeats the case-sensitive split
(the `[1]` index error), both degrading to `ok []`. -/
theorem c9_witness :
    extractTables failParser "SELEC T" = Except.ok [] ∧
    extractWhereConditions "select * from t where a = 1" = Except.ok [] :=
  ⟨(c9_extractor_never_fails failParser "SELEC T").2.2.1 "parse error" rfl,
   (c9_extractor_never_fails failParser "select * from t where a = 1").2.2.2
     "list index out of range" (by rfl)⟩

/-- C6: the gain estimator, for a non-negative table size, succeeds with
`percent` exactly 60 / 40 / 20 by size band (the two-decimal rounding is
the identity there), `newTime = oldTime * (1 - gainFactor)` exactly
(elapsed times are integers, so the rounding is again the identity), and
the clamped old time is at least 1; a negative size is rejected. -/
theorem c6_gain_estimator (q : PIQuery) (size : ℚ) :
    (0 ≤ size →
      estimateGain q size = Except.ok
        { estimated_gain_percent :=
            if size < 10 then 60 else if size < 50 then 40 else 20
          old_time := ((max 1 (q.elapsed_time.getD 100) : ℤ) : ℚ)
          new_time := ((max 1 (q.elapsed_time.getD 100) : ℤ) : ℚ) *
            (1 - (if size < 10 then (3:ℚ)/5 else if size < 50 then 2/5 else 1/5))
          schema := q.schema
          sql_id := q.sql_id } ∧
      1 ≤ ((max 1 (q.elapsed_time.getD 100) : ℤ) : ℚ)) ∧
    (size < 0 →
      estimateGain q size = Except.error "table_size_mb deve ser um número positivo") := by
  constructor
  · intro h
    have hn : ¬ size < 0 := not_lt.mpr h
    refine ⟨?_, by exact_mod_cast le_max_left 1 (q.elapsed_time.getD 100)⟩
    set b : ℤ := max 1 (q.elapsed_time.getD 100) with hb
    simp only [estimateGain, if_neg hn, ← hb]
    by_cases h10 : size < 10
    · simp only [if_pos h10]
      rw [show (3:ℚ)/5 * 100 = 60 by norm_num,
        pyRound2_of_mul_hundred_int 60 6000 (by norm_num),
        pyRound2_of_mul_hundred_int ((b:ℚ) * (1 - 3/5)) (40 * b) (by push_cast; ring)]
    · by_cases h50 : size < 50
      · simp only [if_neg h10, if_pos h50]
        rw [show (2:ℚ)/5 * 100 = 40 by norm_num,
          pyRound2_of_mul_hundred_int 40 4000 (by norm_num),
          pyRound2_of_mul_hundred_int ((b:ℚ) * (1 - 2/5)) (60 * b) (by push_cast; ring)]
      · simp only [if_neg h10, if_neg h50]
        rw [show (1:ℚ)/5 * 100 = 20 by norm_num,
          pyRound2_of_mul_hundred_int 20 2000 (by norm_num),
          pyRound2_of_mul_hundred_int ((b:ℚ) * (1 - 1/5)) (80 * b) (by push_cast; ring)]
  · intro h
    simp only [estimateGain, if_pos h]

/-- C6 witness: concrete bands (the spec's monotonicity example sizes 5,
30, 100) and the rejection of a negative size. -/
theorem c6_witness :
    estimateGain ⟨some "q1", ["t"], some 1000, none⟩ 5 =
      Except.ok ⟨60, 1000, 400, none, some "q1"⟩ ∧
    estimateGain ⟨some "q1", ["t"], some 1000, none⟩ 30 =
      Except.ok ⟨40, 1000, 600, none, some "q1"⟩ ∧
    estimateGain ⟨some "q1", ["t"], some 1000, none⟩ 100 =
      Except.ok ⟨20, 1000, 800, none, some "q1"⟩ ∧
    (60 : ℚ) > 40 ∧ (40 : ℚ) > 20 ∧
    estimateGain ⟨some "q1", ["t"], some 1000, none⟩ (-1) =
      Except.error "table_size_mb deve ser um número positivo" := by
  refine ⟨?_, ?_, ?_, by norm_num, by norm_num, ?_⟩
  · have h := ((c6_gain_estimator ⟨some "q1", ["t"], some 1000, none⟩ 5).1 (by norm_num)).1
    rw [h]
    norm_num
  · have h := ((c6_gain_estimator ⟨some "q1", ["t"], some 1000, none⟩ 30).1 (by norm_num)).1
    rw [h]
    norm_num
  · have h := ((c6_gain_estimator ⟨some "q1", ["t"], some 1000, none⟩ 100).1 (by norm_num)).1
    rw [h]
    norm_num
  · exact (c6_gain_estimator ⟨some "q1", ["t"], some 1000, none⟩ (-1)).2 (by norm_num)

/-- C5 amended: an unreachable collaborator yields an *empty* result, not
an explicit failure: a failed candidate-query fetch (`execute_query`
returns `None`) makes `identify_fts_queries` return `[]`, and a
down connection makes `evaluate_performance` return `ok []`. -/
theorem c5_unreachable_collaborator (r : OracleTableReader)
    (parser : String → Except String (List String)) (tables : TablesDict)
    (queries : Option (List PIQuery)) :
    (r.ftsRows = none → identifyFtsQueries r parser = []) ∧
    (r.isConnected = Except.ok false →
      evaluatePerformance r tables queries = Except.ok []) := by
  constructor
  · intro h
    unfold identifyFtsQueries
    rw [h]
  · intro h
    unfold evaluatePerformance
    rw [h]

/-- A reader whose database is unreachable: the connection check reports
no connection and the candidate-query fetch fails. -/
def downReader : OracleTableReader :=
  { isConnected := Except.ok false
    ftsRows := none
    getTableSize := fun _ => none
    getTableSchema := fun _ => none
    getExistingIndexes := fun _ => [] }

/-- A parser that extracts nothing. -/
def noParser : String → Except String (List String) := fun _ => Except.ok []

/-- C5 counterexample: with the collaborator unreachable for the whole
run, the fetch returns the plain empty list and the planner returns an
*ok* empty list — indistinguishable from "nothing found", contradicting
the claimed explicit failure result. -/
theorem c5_counterexample :
    identifyFtsQueries downReader noParser = ([] : List MonitorQuery) ∧
    evaluatePerformance downReader ⟨[⟨some "T", some 5⟩], []⟩ none =
      Except.ok ([] : List Suggestion) :=
  ⟨rfl, rfl⟩

/-- C5 witness for the amended statement. -/
theorem c5_witness :
    identifyFtsQueries downReader failParser = ([] : List MonitorQuery) ∧
    evaluatePerformance downReader ⟨[], [⟨some "U", some 50⟩]⟩ none =
      Except.ok ([] : List Suggestion) :=
  ⟨(c5_unreachable_collaborator downReader failParser ⟨[], []⟩ none).1 rfl,
   (c5_unreachable_collaborator downReader failParser
     ⟨[], [⟨some "U", some 50⟩]⟩ none).2 rfl⟩

theorem classifiedInfo_some {r : OracleTableReader} {t : String} {i : TableInfoT}
    (h : classifiedInfo r t = some i) :
    i.table = t ∧ r.getTableSize t = some i.size_mb := by
  unfold classifiedInfo at h
  cases hs : r.getTableSize t <;> rw [hs] at h
  · exact absurd h (by simp)
  · refine ⟨?_, ?_⟩
    · rw [← Option.some_inj.mp h]
    · rw [← Option.some_inj.mp h]

/-- The classification loop, characterised: entries are the successfully
looked-up tables, split by `size < threshold`. -/
theorem classify_foldl_eq (r : OracleTableReader) (thr : ℚ) :
    ∀ (ts : List String) (acc : ClassificationResult),
      ts.foldl (classifyStep r thr) acc =
        ⟨acc.T1 ++ (ts.filterMap (classifiedInfo r)).filter
            (fun i => decide (i.size_mb < thr)),
         acc.T2 ++ (ts.filterMap (classifiedInfo r)).filter
            (fun i => decide (¬ i.size_mb < thr))⟩
  | [], acc => by simp
  | t :: ts, acc => by
    have ih := classify_foldl_eq r thr ts
    rw [List.foldl_cons, ih (classifyStep r thr acc t), List.filterMap_cons]
    cases hinfo : classifiedInfo r t with
    | none =>
      rw [show classifyStep r thr acc t = acc from by
        simp [classifyStep, hinfo]]
    | some info =>
      by_cases hlt : info.size_mb < thr
      · rw [show classifyStep r thr acc t = { acc with T1 := acc.T1 ++ [info] } from by
          simp [classifyStep, hinfo, hlt]]
        rw [List.filter_cons, List.filter_cons]
        simp [hlt]
      · rw [show classifyStep r thr acc t = { acc with T2 := acc.T2 ++ [info] } from by
          simp [classifyStep, hinfo, hlt]]
        rw [List.filter_cons, List.filter_cons]
        simp [hlt]

/-- C7: a table whose size lookup succeeds lands in T1 exactly when
`size < threshold` and in T2 exactly when `size ≥ threshold`; at the
boundary (`size = threshold`) it is in T2, never in T1. -/
theorem c7_classifier_boundary (r : OracleTableReader)
    (qts : List (List String)) (thr : ℚ) (t : String) (s : ℚ)
    (hmem : t ∈ tableUniverse qts) (hs : r.getTableSize t = some s) :
    ((∃ i ∈ (classifyTables r qts thr).T1, i.table = t) ↔ s < thr) ∧
    ((∃ i ∈ (classifyTables r qts thr).T2, i.table = t) ↔ thr ≤ s) := by
  unfold classifyTables
  rw [classify_foldl_eq r thr (tableUniverse qts) ⟨[], []⟩]
  simp only [List.nil_append]
  constructor
  · constructor
    · rintro ⟨i, hi, hit⟩
      rw [List.mem_filter, List.mem_filterMap] at hi
      obtain ⟨⟨t', _, hinfo⟩, hflt⟩ := hi
      obtain ⟨htab, hsz⟩ := classifiedInfo_some hinfo
      rw [hit] at htab
      rw [← htab] at hsz
      rw [hs] at hsz
      have : i.size_mb = s := by
        exact (Option.some_inj.mp hsz).symm
      rw [this] at hflt
      exact of_decide_eq_true hflt
    · intro hlt
      have hinfo : ∃ i, classifiedInfo r t = some i ∧ i.table = t ∧ i.size_mb = s := by
        unfold classifiedInfo
        rw [hs]
        exact ⟨_, rfl, rfl, rfl⟩
      obtain ⟨i, hi, hit, hisz⟩ := hinfo
      refine ⟨i, ?_, hit⟩
      rw [List.mem_filter, List.mem_filterMap]
      exact ⟨⟨t, hmem, hi⟩, by rw [hisz]; exact decide_eq_true hlt⟩
  · constructor
    · rintro ⟨i, hi, hit⟩
      rw [List.mem_filter, List.mem_filterMap] at hi
      obtain ⟨⟨t', _, hinfo⟩, hflt⟩ := hi
      obtain ⟨htab, hsz⟩ := classifiedInfo_some hinfo
      rw [hit] at htab
      rw [← htab] at hsz
      rw [hs] at hsz
      have : i.size_mb = s := by
        exact (Option.some_inj.mp hsz).symm
      rw [this] at hflt
      exact not_lt.mp (of_decide_eq_true hflt)
    · intro hge
      have hinfo : ∃ i, classifiedInfo r t = some i ∧ i.table = t ∧ i.size_mb = s := by
        unfold classifiedInfo
        rw [hs]
        exact ⟨_, rfl, rfl, rfl⟩
      obtain ⟨i, hi, hit, hisz⟩ := hinfo
      refine ⟨i, ?_, hit⟩
      rw [List.mem_filter, List.mem_filterMap]
      exact ⟨⟨t, hmem, hi⟩, by rw [hisz]; exact decide_eq_true (not_lt.mpr hge)⟩

/-- A reader for the boundary example: `USERS` is exactly 10.0 MB. -/
def borderReader : OracleTableReader :=
  { isConnected := Except.ok true
    ftsRows := none
    getTableSize := fun t => if t = "USERS" then some 10 else none
    getTableSchema := fun _ => none
    getExistingIndexes := fun _ => [] }

/-- C7 witness: a table of exactly 10.0 MB with threshold 10.0 is tier2,
never tier1. -/
theorem c7_witness :
    (∃ i ∈ (classifyTables borderReader [["users"]] 10).T2, i.table = "USERS") ∧
    ¬ (∃ i ∈ (classifyTables borderReader [["users"]] 10).T1, i.table = "USERS") := by
  have h := c7_classifier_boundary borderReader [["users"]] 10 "USERS" 10
    (by decide) (by rfl)
  exact ⟨h.2.mpr le_rfl, fun hc => absurd (h.1.mp hc) (lt_irrefl 10)⟩

deriving instance DecidableEq for Except

/-! ### `evaluate_performance` structure lemmas -/

/-- The gain percentage `_estimate_gain` reports for a given table size
(a derived abbreviation: 0.6/0.4/0.2 times 100, rounding being the
identity on these values). -/
def gainPercentOf (size : ℚ) : ℚ :=
  if size < 10 then 60 else if size < 50 then 40 else 20

theorem pyRound2_zero : pyRound2 0 = 0 :=
  pyRound2_of_mul_hundred_int 0 0 (by norm_num)

theorem pyRound2_gainPercentOf (size : ℚ) :
    pyRound2 (gainPercentOf size) = gainPercentOf size := by
  unfold gainPercentOf
  by_cases h10 : size < 10
  · rw [if_pos h10]
    exact pyRound2_of_mul_hundred_int 60 6000 (by norm_num)
  · by_cases h50 : size < 50
    · rw [if_neg h10, if_pos h50]
      exact pyRound2_of_mul_hundred_int 40 4000 (by norm_num)
    · rw [if_neg h10, if_neg h50]
      exact pyRound2_of_mul_hundred_int 20 2000 (by norm_num)

theorem estimateGain_percent (q : PIQuery) (size : ℚ) (h : ¬ size < 0) :
    ∃ g, estimateGain q size = Except.ok g ∧
      g.estimated_gain_percent = gainPercentOf size := by
  refine ⟨_, by unfold estimateGain; rw [if_neg h], ?_⟩
  show pyRound2 (_ * 100) = _
  unfold gainPercentOf
  by_cases h10 : size < 10
  · rw [if_pos h10, if_pos h10, show (3:ℚ)/5 * 100 = 60 by norm_num]
    exact pyRound2_of_mul_hundred_int 60 6000 (by norm_num)
  · by_cases h50 : size < 50
    · rw [if_neg h10, if_pos h50, if_neg h10, if_pos h50,
        show (2:ℚ)/5 * 100 = 40 by norm_num]
      exact pyRound2_of_mul_hundred_int 40 4000 (by norm_num)
    · rw [if_neg h10, if_neg h50, if_neg h10, if_neg h50,
        show (1:ℚ)/5 * 100 = 20 by norm_num]
      exact pyRound2_of_mul_hundred_int 20 2000 (by norm_num)

/-- The gain sum over a list of queries, all with the same (size-only
dependent) percentage. -/
theorem sumGain_loop (size : ℚ) (h : ¬ size < 0) :
    ∀ (qs : List PIQuery) (a : ℚ),
      qs.foldl
        (fun acc q => acc.bind (fun s => (estimateGain q size).map
          (fun g => s + g.estimated_gain_percent)))
        (Except.ok a) =
      Except.ok (a + qs.length * gainPercentOf size)
  | [], a => by simp
  | q :: qs, a => by
    obtain ⟨g, hg, hp⟩ := estimateGain_percent q size h
    rw [List.foldl_cons]
    rw [show (Except.ok a : Except String ℚ).bind (fun s => (estimateGain q size).map
      (fun g => s + g.estimated_gain_percent)) = Except.ok (a + gainPercentOf size) from by
        simp [hg, hp, Except.bind, Except.map]]
    rw [sumGain_loop size h qs (a + gainPercentOf size)]
    congr 1
    simp only [List.length_cons]
    push_cast
    ring

theorem sumGainPercents_eq (qs : List PIQuery) (size : ℚ) (h : ¬ size < 0) :
    sumGainPercents qs size = Except.ok ((qs.length : ℚ) * gainPercentOf size) := by
  unfold sumGainPercents
  rw [sumGain_loop size h qs 0]
  norm_num

/-- The gain value `evaluate_performance` computes for a T2 table:
the mean of the per-query estimates when some queries touch the table
(they are all equal, so the mean is that common percentage), 0 otherwise. -/
def t2Gain (qs : List PIQuery) (name : String) (size : ℚ) : ℚ :=
  if (qs.filter (fun q => name ∈ q.tables)).length = 0 then 0 else gainPercentOf size

/-- The suggestion dictionary `evaluate_performance` appends for a named
T2 table with non-negative size. -/
def expectedT2Sug (r : OracleTableReader) (qs : List PIQuery)
    (name : String) (size : ℚ) : Suggestion :=
  { table := name
    size_mb := size
    category := "T2"
    suggestion :=
      if r.getExistingIndexes name = [] then "considerar índice"
      else "refatorar query ou particionar"
    existing_indexes := r.getExistingIndexes name
    priority_score :=
      if t2Gain qs name size > 20 then 9 else if t2Gain qs name size > 0 then 7 else 5
    impact :=
      if t2Gain qs name size > 20 then "Crítico"
      else if t2Gain qs name size > 0 then "Médio" else "Baixo"
    queries_affected := some ((qs.filter (fun q => name ∈ q.tables)).filterMap
      (fun q => match q.sql_id with
        | none => none
        | some i => if i = "" then none else some i))
    avg_gain_percent := some (t2Gain qs name size) }

theorem processT2_spec (r : OracleTableReader) (qs : List PIQuery) (t : TableEntry)
    (name : String) (hname : t.table = some name) (hne : name ≠ "")
    (hsz : 0 ≤ t.size_mb.getD 0) :
    processT2 r qs t =
      Except.ok (some (expectedT2Sug r qs name (t.size_mb.getD 0))) := by
  have hns : ¬ t.size_mb.getD 0 < 0 := not_lt.mpr hsz
  unfold processT2
  rw [hname]
  simp only [if_neg hne]
  by_cases hrel : (qs.filter (fun q => name ∈ q.tables)).length = 0
  · simp only [if_pos hrel]
    norm_num [expectedT2Sug, t2Gain, hrel, pyRound2_zero, Except.map]
  · simp only [if_neg hrel]
    rw [sumGainPercents_eq _ _ hns]
    unfold expectedT2Sug t2Gain
    rw [if_neg hrel]
    simp only [Except.map]
    have hlen : ((qs.filter (fun q => name ∈ q.tables)).length : ℚ) ≠ 0 := by
      exact_mod_cast hrel
    have hdiv : ((qs.filter (fun q => name ∈ q.tables)).length : ℚ) *
        gainPercentOf (t.size_mb.getD 0) /
        ((qs.filter (fun q => name ∈ q.tables)).length : ℚ) =
        gainPercentOf (t.size_mb.getD 0) := by
      field_simp
    rw [hdiv, pyRound2_gainPercentOf]

theorem processT2_ok (r : OracleTableReader) (qs : List PIQuery) (t : TableEntry)
    (hsz : 0 ≤ t.size_mb.getD 0) :
    ∃ o, processT2 r qs t = Except.ok o := by
  cases hname : t.table with
  | none =>
    refine ⟨none, ?_⟩
    unfold processT2
    rw [hname]
  | some name =>
    by_cases hne : name = ""
    · refine ⟨none, ?_⟩
      unfold processT2
      rw [hname]
      simp [hne]
    · exact ⟨_, processT2_spec r qs t name hname hne hsz⟩

/-- The T1 loop appends exactly the non-skipped entries, in input order. -/
theorem evalT1Loop_eq (r : OracleTableReader) :
    ∀ (ts : List TableEntry) (acc : List Suggestion),
      evalT1Loop r ts acc = acc ++ ts.filterMap (processT1 r)
  | [], acc => by simp [evalT1Loop]
  | t :: ts, acc => by
    cases hp : processT1 r t with
    | none =>
      simp only [evalT1Loop, hp]
      rw [evalT1Loop_eq r ts acc, List.filterMap_cons, hp]
    | some sug =>
      simp only [evalT1Loop, hp]
      rw [evalT1Loop_eq r ts (acc ++ [sug]), List.filterMap_cons, hp]
      simp

/-- The suggestion (if any) the T2 loop appends for one table entry. -/
def t2Sug (r : OracleTableReader) (qs : List PIQuery) (t : TableEntry) :
    Option Suggestion :=
  match processT2 r qs t with
  | .ok o => o
  | .error _ => none

/-- The T2 loop, when no entry errors, appends exactly the produced
suggestions in input order. -/
theorem evalT2Loop_eq (r : OracleTableReader) (qs : List PIQuery) :
    ∀ (ts : List TableEntry) (acc : List Suggestion),
      (∀ t ∈ ts, ∃ o, processT2 r qs t = Except.ok o) →
      evalT2Loop r qs ts acc = Except.ok (acc ++ ts.filterMap (t2Sug r qs))
  | [], acc, _ => by simp [evalT2Loop]
  | t :: ts, acc, h => by
    obtain ⟨o, ho⟩ := h t (List.mem_cons_self t ts)
    have hrest : ∀ t' ∈ ts, ∃ o', processT2 r qs t' = Except.ok o' :=
      fun t' ht' => h t' (List.mem_cons_of_mem t ht')
    have hsug : t2Sug r qs t = o := by
      unfold t2Sug
      rw [ho]
    cases o with
    | none =>
      simp only [evalT2Loop, ho]
      rw [evalT2Loop_eq r qs ts acc hrest, List.filterMap_cons, hsug]
    | some sug =>
      simp only [evalT2Loop, ho]
      rw [evalT2Loop_eq r qs ts (acc ++ [sug]) hrest, List.filterMap_cons, hsug]
      simp

/-- `evaluate_performance`, fully characterised for a connected reader
and non-negative T2 sizes. -/
theorem evaluatePerformance_ok (r : OracleTableReader) (tables : TablesDict)
    (queries : Option (List PIQuery)) (hconn : r.isConnected = Except.ok true)
    (hsz : ∀ t ∈ tables.T2, 0 ≤ t.size_mb.getD 0) :
    evaluatePerformance r tables queries =
      Except.ok (tables.T1.filterMap (processT1 r) ++
        tables.T2.filterMap (t2Sug r (queries.getD []))) := by
  unfold evaluatePerformance
  rw [hconn, evalT1Loop_eq r tables.T1 [], List.nil_append]
  exact evalT2Loop_eq r (queries.getD []) tables.T2 _
    (fun t ht => processT2_ok r (queries.getD []) t (hsz t ht))

theorem processT1_mem_fields (r : OracleTableReader) {t : TableEntry}
    {s : Suggestion} (h : processT1 r t = some s) :
    s.category = "T1" ∧ (s.priority_score = 8 ∨ s.priority_score = 2) := by
  cases ht : t.table with
  | none => simp [processT1, ht] at h
  | some name =>
    simp only [processT1, ht] at h
    by_cases hne : name = ""
    · rw [if_pos hne] at h
      exact absurd h (by simp)
    · rw [if_neg hne] at h
      have he := Option.some_inj.mp h
      subst he
      refine ⟨rfl, ?_⟩
      by_cases hidx : r.getExistingIndexes name = []
      · left
        simp [hidx]
      · right
        simp [hidx]

theorem t2Sug_mem_fields (r : OracleTableReader) (qs : List PIQuery)
    {t : TableEntry} {s : Suggestion} (hsz : 0 ≤ t.size_mb.getD 0)
    (h : t2Sug r qs t = some s) :
    s.category = "T2" ∧
    (s.priority_score = 9 ∨ s.priority_score = 7 ∨ s.priority_score = 5) := by
  cases hname : t.table with
  | none =>
    unfold t2Sug processT2 at h
    rw [hname] at h
    exact absurd h (by simp)
  | some name =>
    by_cases hne : name = ""
    · unfold t2Sug processT2 at h
      rw [hname] at h
      simp [hne] at h
    · have hp := processT2_spec r qs t name hname hne hsz
      unfold t2Sug at h
      rw [hp] at h
      have he := Option.some_inj.mp h
      subst he
      refine ⟨rfl, ?_⟩
      unfold expectedT2Sug
      by_cases h20 : t2Gain qs name (t.size_mb.getD 0) > 20
      · left
        simp [h20]
      · by_cases h0 : t2Gain qs name (t.size_mb.getD 0) > 0
        · right; left
          simp [h20, h0]
        · right; right
          simp [h20, h0]

/-- C4 amended: the planner returns the T1-table suggestions first (in
input order, each with priority 8 or 2), followed by the T2-table
suggestions (in input order, each with priority 9, 7 or 5); no sort by
priorityScore is applied to the returned list. -/
theorem c4_suggestion_order (r : OracleTableReader) (tables : TablesDict)
    (queries : Option (List PIQuery))
    (hconn : r.isConnected = Except.ok true)
    (hsz : ∀ t ∈ tables.T2, 0 ≤ t.size_mb.getD 0) :
    evaluatePerformance r tables queries =
      Except.ok (tables.T1.filterMap (processT1 r) ++
        tables.T2.filterMap (t2Sug r (queries.getD []))) ∧
    (∀ s ∈ tables.T1.filterMap (processT1 r),
      s.category = "T1" ∧ (s.priority_score = 8 ∨ s.priority_score = 2)) ∧
    (∀ s ∈ tables.T2.filterMap (t2Sug r (queries.getD [])),
      s.category = "T2" ∧
      (s.priority_score = 9 ∨ s.priority_score = 7 ∨ s.priority_score = 5)) := by
  refine ⟨evaluatePerformance_ok r tables queries hconn hsz, ?_, ?_⟩
  · intro s hs
    rw [List.mem_filterMap] at hs
    obtain ⟨t, _, hp⟩ := hs
    exact processT1_mem_fields r hp
  · intro s hs
    rw [List.mem_filterMap] at hs
    obtain ⟨t, ht, hp⟩ := hs
    exact t2Sug_mem_fields r _ (hsz t ht) hp

/-- A reader where table `A` already has an index (T1 priority 2) and
table `B` has none. -/
def cx4Reader : OracleTableReader :=
  { isConnected := Except.ok true
    ftsRows := none
    getTableSize := fun _ => none
    getTableSchema := fun _ => none
    getExistingIndexes := fun t => if t = "A" then ["IDX_A"] else [] }

unseal Rat.add Rat.sub Rat.mul Rat.inv in
/-- C4 counterexample: an indexed T1 table (priority 2) followed by a T2
table (priority 5) — the returned list is `[2, 5]`, not sorted by
priorityScore descending. -/
theorem c4_counterexample :
    (evaluatePerformance cx4Reader ⟨[⟨some "A", some 1⟩], [⟨some "B", some 15⟩]⟩
        none).map (fun l => l.map (fun s => s.priority_score)) =
      Except.ok [2, 5] ∧
    ¬ List.Sorted (fun a b : ℚ => b ≤ a) [2, 5] := by
  constructor
  · decide
  · intro h
    have := List.rel_of_sorted_cons h 5 (by simp)
    norm_num at this

/-- C4 witness for the amended statement. -/
theorem c4_witness :
    evaluatePerformance cx4Reader ⟨[⟨some "A", some 1⟩], [⟨some "B", some 15⟩]⟩
        none =
      Except.ok
        (([⟨some "A", some 1⟩] : List TableEntry).filterMap (processT1 cx4Reader) ++
         ([⟨some "B", some 15⟩] : List TableEntry).filterMap (t2Sug cx4Reader [])) :=
  (c4_suggestion_order cx4Reader ⟨[⟨some "A", some 1⟩], [⟨some "B", some 15⟩]⟩
    none rfl (by
      intro t ht
      simp only [List.mem_singleton] at ht
      subst ht
      norm_num)).1

/-- C2 amended: for every named tier2 table with a non-negative size, the
planner emits a suggestion whose `avg_gain_percent` is the mean of the
estimator's percentage over the matching queries (0 when none match — the
percentage depends only on the table size, so the mean is 60/40/20 by
size band), whose priorityScore is 9 / 7 / 5 and impact CRITICAL / MEDIUM
/ LOW by the >20 / >0 thresholds on that mean, but whose action depends
*only* on index presence: REFACTOR_OR_PARTITION when indexes exist, else
CONSIDER_INDEX — even when no query group matches. -/
theorem c2_t2_planner (r : OracleTableReader) (tables : TablesDict)
    (qs : List PIQuery) (hconn : r.isConnected = Except.ok true)
    (hsz : ∀ t ∈ tables.T2, 0 ≤ t.size_mb.getD 0) :
    ∃ sols, evaluatePerformance r tables (some qs) = Except.ok sols ∧
      ∀ t ∈ tables.T2, ∀ name, t.table = some name → name ≠ "" →
        ∃ sug ∈ sols,
          sug.table = name ∧
          sug.category = "T2" ∧
          sug.avg_gain_percent = some (t2Gain qs name (t.size_mb.getD 0)) ∧
          sug.suggestion =
            (if r.getExistingIndexes name = [] then "considerar índice"
             else "refatorar query ou particionar") ∧
          sug.priority_score =
            (if t2Gain qs name (t.size_mb.getD 0) > 20 then 9
             else if t2Gain qs name (t.size_mb.getD 0) > 0 then 7 else 5) ∧
          sug.impact =
            (if t2Gain qs name (t.size_mb.getD 0) > 20 then "Crítico"
             else if t2Gain qs name (t.size_mb.getD 0) > 0 then "Médio"
             else "Baixo") ∧
          sug.queries_affected =
            some ((qs.filter (fun q => name ∈ q.tables)).filterMap
              (fun q => match q.sql_id with
                | none => none
                | some i => if i = "" then none else some i)) := by
  refine ⟨_, evaluatePerformance_ok r tables (some qs) hconn hsz, ?_⟩
  intro t ht name hname hne
  refine ⟨expectedT2Sug r qs name (t.size_mb.getD 0), ?_,
    rfl, rfl, rfl, rfl, rfl, rfl, rfl⟩
  apply List.mem_append.mpr
  right
  apply List.mem_filterMap.mpr
  refine ⟨t, ht, ?_⟩
  unfold t2Sug
  simp only [Option.getD_some]
  rw [processT2_spec r qs t name hname hne (hsz t ht)]

/-- A reader where T2 table `B` already has an index. -/
def cx2Reader : OracleTableReader :=
  { isConnected := Except.ok true
    ftsRows := none
    getTableSize := fun _ => none
    getTableSchema := fun _ => none
    getExistingIndexes := fun t => if t = "B" then ["IDX_B"] else [] }

unseal Rat.add Rat.sub Rat.mul Rat.inv in
/-- C2 counterexample: a tier2 table matched by *no* query group but with
an existing index gets action REFACTOR_OR_PARTITION (avgGainPercent 0),
not CONSIDER_INDEX as the claim states. -/
theorem c2_counterexample :
    (evaluatePerformance cx2Reader ⟨[], [⟨some "B", some 15⟩]⟩ (some [])).map
      (fun l => l.map (fun s => (s.suggestion, s.avg_gain_percent))) =
      Except.ok [("refatorar query ou particionar", some 0)] ∧
    "refatorar query ou particionar" ≠ "considerar índice" :=
  ⟨by decide, by decide⟩

/-- A connected reader with no indexes anywhere. -/
def indexFreeReader : OracleTableReader :=
  { isConnected := Except.ok true
    ftsRows := none
    getTableSize := fun _ => none
    getTableSchema := fun _ => none
    getExistingIndexes := fun _ => [] }

/-- C2 witness: a matching query on a 15 MB table gives mean gain 40,
priority 9, and (no index) action CONSIDER_INDEX. -/
theorem c2_witness :
    ∃ sols, evaluatePerformance indexFreeReader ⟨[], [⟨some "B", some 15⟩]⟩
        (some [⟨some "q1", ["B"], some 500, none⟩]) = Except.ok sols ∧
      ∃ sug ∈ sols, sug.table = "B" ∧ sug.avg_gain_percent = some 40 ∧
        sug.priority_score = 9 ∧ sug.suggestion = "considerar índice" := by
  obtain ⟨sols, hok, hall⟩ := c2_t2_planner indexFreeReader
    ⟨[], [⟨some "B", some 15⟩]⟩ [⟨some "q1", ["B"], some 500, none⟩] rfl
    (by
      intro t ht
      simp only [List.mem_singleton] at ht
      subst ht
      norm_num)
  obtain ⟨sug, hmem, h1, _, h3, h4, h5, h6, _⟩ :=
    hall ⟨some "B", some 15⟩ (List.mem_singleton.mpr rfl) "B" rfl (by decide)
  have hg : t2Gain [⟨some "q1", ["B"], some 500, none⟩] "B"
      ((some (15:ℚ)).getD 0) = 40 := by decide
  refine ⟨sols, hok, sug, hmem, h1, ?_, ?_, ?_⟩
  · rw [h3, hg]
  · rw [h5, hg]
    norm_num
  · rw [h4]
    simp [indexFreeReader]

/-! ### Grouping invariant (`group_similar_queries`) -/

/-- The input queries that fold into the group keyed `key`. -/
def matching (qs : List MonitorQuery) (key : String) : List MonitorQuery :=
  qs.filter (fun q => signatureOfQuery q == key)

theorem matching_append_single (p : List MonitorQuery) (q : MonitorQuery)
    (key : String) :
    matching (p ++ [q]) key =
      matching p key ++ if signatureOfQuery q == key then [q] else [] := by
  unfold matching
  rw [List.filter_append]
  congr 1
  cases h : signatureOfQuery q == key <;> simp [List.filter, h]

/-- Invariant of the accumulation loop: group keys are distinct, each
group's running statistics are exactly those of its matching processed
queries (with at least one member), and every processed query has a
group. -/
def groupsInv (processed : List MonitorQuery) (gs : List QueryGroup) : Prop :=
  ((gs.map (fun g => g.group_key)).Nodup) ∧
  (∀ g ∈ gs,
    g.count = (matching processed g.group_key).length ∧
    g.total_exec_time =
      ((matching processed g.group_key).map (fun q => q.elapsed_time)).sum ∧
    g.sql_ids = (matching processed g.group_key).map (fun q => q.sql_id) ∧
    1 ≤ g.count) ∧
  (∀ q ∈ processed, ∃ g ∈ gs, g.group_key = signatureOfQuery q)

theorem groupsInv_nil : groupsInv [] [] :=
  ⟨List.nodup_nil, by simp, by simp⟩

theorem groupsInv_step (p : List MonitorQuery) (gs : List QueryGroup)
    (q : MonitorQuery) (h : groupsInv p gs) :
    groupsInv (p ++ [q]) (addQueryToGroups gs q) := by
  obtain ⟨hnd, hstats, hcomp⟩ := h
  unfold addQueryToGroups
  by_cases hany : gs.any (fun g => g.group_key == signatureOfQuery q) = true
  · rw [if_pos hany]
    have hkeys : (gs.map (fun g =>
        if g.group_key == signatureOfQuery q then updateGroupStats g q else g)).map
          (fun g => g.group_key) = gs.map (fun g => g.group_key) := by
      rw [List.map_map]
      apply List.map_congr_left
      intro g _
      by_cases hk : g.group_key = signatureOfQuery q
      · simp [hk, updateGroupStats]
      · simp [hk]
    refine ⟨by rw [hkeys]; exact hnd, ?_, ?_⟩
    · intro g' hg'
      rw [List.mem_map] at hg'
      obtain ⟨g, hgmem, hgeq⟩ := hg'
      obtain ⟨hc, htot, hids, hpos⟩ := hstats g hgmem
      by_cases hk : g.group_key = signatureOfQuery q
      · rw [if_pos (beq_iff_eq.mpr hk)] at hgeq
        subst hgeq
        have hkg : (updateGroupStats g q).group_key = g.group_key := rfl
        have hqk : (signatureOfQuery q == g.group_key) = true :=
          beq_iff_eq.mpr hk.symm
        rw [hkg, matching_append_single, if_pos hqk]
        refine ⟨?_, ?_, ?_, ?_⟩
        · show g.count + 1 = _
          rw [List.length_append, hc]
          rfl
        · show g.total_exec_time + q.elapsed_time = _
          rw [List.map_append, List.sum_append, htot]
          simp
        · show g.sql_ids ++ [q.sql_id] = _
          rw [List.map_append, hids]
          rfl
        · show 1 ≤ g.count + 1
          omega
      · rw [if_neg (fun hb => hk (beq_iff_eq.mp hb))] at hgeq
        subst hgeq
        have hqk : ¬ ((signatureOfQuery q == g.group_key) = true) :=
          fun hb => hk (beq_iff_eq.mp hb).symm
        rw [matching_append_single, if_neg hqk, List.append_nil]
        exact ⟨hc, htot, hids, hpos⟩
    · intro q' hq'
      rw [List.mem_append] at hq'
      rcases hq' with hq' | hq'
      · obtain ⟨g, hgmem, hgkey⟩ := hcomp q' hq'
        refine ⟨if g.group_key == signatureOfQuery q then updateGroupStats g q else g,
          List.mem_map_of_mem _ hgmem, ?_⟩
        by_cases hk : g.group_key = signatureOfQuery q
        · rw [if_pos (beq_iff_eq.mpr hk)]
          exact hgkey
        · rw [if_neg (fun hb => hk (beq_iff_eq.mp hb))]
          exact hgkey
      · rw [List.mem_singleton] at hq'
        rw [List.any_eq_true] at hany
        obtain ⟨g, hgmem, hgk⟩ := hany
        rw [beq_iff_eq] at hgk
        refine ⟨if g.group_key == signatureOfQuery q then updateGroupStats g q else g,
          List.mem_map_of_mem _ hgmem, ?_⟩
        rw [if_pos (beq_iff_eq.mpr hgk), hq']
        exact hgk
  · rw [if_neg hany]
    have hnotin : ∀ g ∈ gs, g.group_key ≠ signatureOfQuery q := by
      intro g hgmem hc'
      apply hany
      rw [List.any_eq_true]
      exact ⟨g, hgmem, beq_iff_eq.mpr hc'⟩
    have hnone : matching p (signatureOfQuery q) = [] := by
      rw [matching, List.filter_eq_nil_iff]
      intro q' hq' hpq'
      rw [beq_iff_eq] at hpq'
      obtain ⟨g, hgmem, hgkey⟩ := hcomp q' hq'
      exact hnotin g hgmem (by rw [hgkey, hpq'])
    refine ⟨?_, ?_, ?_⟩
    · rw [List.map_append, List.nodup_append]
      refine ⟨hnd, by simp, ?_⟩
      intro k hk1 hk2
      rw [List.mem_map] at hk1
      obtain ⟨g, hgmem, hgk⟩ := hk1
      simp only [List.map_cons, List.map_nil, List.mem_singleton] at hk2
      rw [show (updateGroupStats (initializeQueryGroup q (signatureOfQuery q)) q).group_key
        = signatureOfQuery q from rfl] at hk2
      exact hnotin g hgmem (by rw [hgk, hk2])
    · intro g' hg'
      rw [List.mem_append] at hg'
      rcases hg' with hg' | hg'
      · obtain ⟨hc, htot, hids, hpos⟩ := hstats g' hg'
        have hqk : ¬ ((signatureOfQuery q == g'.group_key) = true) :=
          fun hb => hnotin g' hg' (beq_iff_eq.mp hb).symm
        rw [matching_append_single, if_neg hqk, List.append_nil]
        exact ⟨hc, htot, hids, hpos⟩
      · rw [List.mem_singleton] at hg'
        subst hg'
        rw [show (updateGroupStats (initializeQueryGroup q (signatureOfQuery q)) q).group_key
          = signatureOfQuery q from rfl]
        rw [matching_append_single, hnone, List.nil_append,
          if_pos (beq_iff_eq.mpr rfl)]
        refine ⟨rfl, ?_, rfl, le_refl 1⟩
        show (0:ℤ) + q.elapsed_time = _
        simp
    · intro q' hq'
      rw [List.mem_append] at hq'
      rcases hq' with hq' | hq'
      · obtain ⟨g, hgmem, hgkey⟩ := hcomp q' hq'
        exact ⟨g, List.mem_append_left _ hgmem, hgkey⟩
      · rw [List.mem_singleton] at hq'
        subst hq'
        exact ⟨_, List.mem_append_right _ (List.mem_singleton.mpr rfl), rfl⟩

theorem accumulate_inv :
    ∀ (qs p : List MonitorQuery) (gs : List QueryGroup),
      groupsInv p gs → groupsInv (p ++ qs) (qs.foldl addQueryToGroups gs)
  | [], p, gs, h => by simpa using h
  | q :: qs, p, gs, h => by
    have h1 := groupsInv_step p gs q h
    have h2 := accumulate_inv qs (p ++ [q]) (addQueryToGroups gs q) h1
    rw [List.foldl_cons]
    simpa [List.append_assoc] using h2

theorem accumulateGroups_inv (qs : List MonitorQuery) :
    groupsInv qs (accumulateGroups qs) := by
  have h := accumulate_inv qs [] [] groupsInv_nil
  simpa [accumulateGroups] using h

/-- The finalized (pre-sort) groups: distinct keys, per-group statistics,
derived average and priority, and completeness. -/
theorem finalizedGroups_spec (qs : List MonitorQuery) :
    (((finalizedGroups qs).map (fun g => g.group_key)).Nodup) ∧
    (∀ g ∈ finalizedGroups qs,
      g.count = (matching qs g.group_key).length ∧
      g.total_exec_time =
        ((matching qs g.group_key).map (fun q => q.elapsed_time)).sum ∧
      g.sql_ids = (matching qs g.group_key).map (fun q => q.sql_id) ∧
      1 ≤ g.count ∧
      g.avg_exec_time = (g.total_exec_time : ℚ) / (g.count : ℚ) ∧
      g.priority_score = pyRound2 ((g.count : ℚ) * (3/5) +
        ((g.total_exec_time : ℚ) / 1000) * (2/5))) ∧
    (∀ q ∈ qs, ∃ g ∈ finalizedGroups qs, g.group_key = signatureOfQuery q) := by
  obtain ⟨hnd, hstats, hcomp⟩ := accumulateGroups_inv qs
  have hkeys : (finalizedGroups qs).map (fun g => g.group_key) =
      (accumulateGroups qs).map (fun g => g.group_key) := by
    unfold finalizedGroups
    rw [List.map_map]
    rfl
  refine ⟨by rw [hkeys]; exact hnd, ?_, ?_⟩
  · intro g hg
    unfold finalizedGroups at hg
    rw [List.mem_map] at hg
    obtain ⟨g0, hg0, hge⟩ := hg
    obtain ⟨hc, htot, hids, hpos⟩ := hstats g0 hg0
    subst hge
    exact ⟨hc, htot, hids, hpos, rfl, rfl⟩
  · intro q hq
    obtain ⟨g, hgmem, hgkey⟩ := hcomp q hq
    exact ⟨finalizeGroup g, List.mem_map_of_mem _ hgmem, hgkey⟩

theorem mem_groupSimilarQueries_iff (qs : List MonitorQuery) (g : QueryGroup) :
    g ∈ groupSimilarQueries qs ↔ g ∈ finalizedGroups qs := by
  unfold groupSimilarQueries
  exact List.mem_insertionSort groupGE

/-- C1 amended: each query group's `count` is the *number* of member
queries sharing its signature (the members' `executions` values are
ignored), `total_exec_time` is the sum of their elapsed times,
`avg_exec_time = total_exec_time / count` (no divide-by-zero guard is
present — none is needed, `count ≥ 1`), and `priority_score` is
`round(count*0.6 + (total/1000)*0.4, 2)`; each signature keys exactly one
group, every input query is folded into a group, and queries with
identical (as multisets) table/predicate lists share a signature. -/
theorem c1_grouping (qs : List MonitorQuery) :
    (∀ g ∈ groupSimilarQueries qs,
      0 < g.count ∧
      g.count = (matching qs g.group_key).length ∧
      g.total_exec_time =
        ((matching qs g.group_key).map (fun q => q.elapsed_time)).sum ∧
      g.avg_exec_time = (g.total_exec_time : ℚ) / (g.count : ℚ) ∧
      g.priority_score = pyRound2 ((g.count : ℚ) * (3/5) +
        ((g.total_exec_time : ℚ) / 1000) * (2/5)) ∧
      ∀ g' ∈ groupSimilarQueries qs, g'.group_key = g.group_key → g' = g) ∧
    (∀ q ∈ qs, ∃ g ∈ groupSimilarQueries qs,
      g.group_key = signatureOfQuery q) ∧
    (∀ q1 ∈ qs, ∀ q2 ∈ qs, q1.tables.Perm q2.tables →
      q1.where_conditions.Perm q2.where_conditions →
      signatureOfQuery q1 = signatureOfQuery q2) := by
  obtain ⟨hnd, hstats, hcomp⟩ := finalizedGroups_spec qs
  refine ⟨?_, ?_, ?_⟩
  · intro g hg
    rw [mem_groupSimilarQueries_iff] at hg
    obtain ⟨hc, htot, _, hpos, havg, hpri⟩ := hstats g hg
    refine ⟨hpos, hc, htot, havg, hpri, ?_⟩
    intro g' hg' hkey
    rw [mem_groupSimilarQueries_iff] at hg'
    exact List.inj_on_of_nodup_map hnd hg' hg hkey
  · intro q hq
    obtain ⟨g, hg, hk⟩ := hcomp q hq
    exact ⟨g, (mem_groupSimilarQueries_iff qs g).mpr hg, hk⟩
  · intro q1 _ q2 _ ht hp
    unfold signatureOfQuery createQuerySignature
    rw [insertionSort_strLe_perm_eq ht, insertionSort_strLe_perm_eq hp]

/-- The spec's end-to-end pair of structurally identical queries (same
table set, same predicate set). -/
def cq1 : MonitorQuery :=
  { sql_id := "sql1", sql_text := "SELECT * FROM users", executions := 10,
    elapsed_time := 1000, tables := ["users"], where_conditions := [],
    schema := none }

def cq2 : MonitorQuery :=
  { sql_id := "sql2", sql_text := "SELECT * FROM users", executions := 5,
    elapsed_time := 2000, tables := ["users"], where_conditions := [],
    schema := none }

unseal Rat.add Rat.sub Rat.mul Rat.inv in
/-- C1 counterexample: two queries with `executions` 10 and 5 fold into
one group whose `count` is 2 (the number of members), not 15 (the claimed
sum of execution counts). -/
theorem c1_counterexample :
    (groupSimilarQueries [cq1, cq2]).map (fun g => (g.count : ℤ)) = [2] ∧
    (2 : ℤ) ≠ 10 + 5 :=
  ⟨by decide, by decide⟩

/-- The single group produced for `cq1`/`cq2`. -/
def cg : QueryGroup :=
  { group_key := "c84aa0512b28072a913bd83dc61199e4"
    sample_sql := "SELECT * FROM users"
    normalized_key := "['users'] WHERE []"
    count := 2
    total_exec_time := 3000
    tables := ["users"]
    schemas := []
    where_conditions := []
    avg_exec_time := 1500
    priority_score := 12/5
    sql_ids := ["sql1", "sql2"] }

unseal Rat.add Rat.sub Rat.mul Rat.inv in
/-- C1 witness: the amended statement applied to the concrete group. -/
theorem c1_witness :
    0 < cg.count ∧ cg.count = (matching [cq1, cq2] cg.group_key).length ∧
    cg.avg_exec_time = (cg.total_exec_time : ℚ) / (cg.count : ℚ) := by
  have hmem : cg ∈ groupSimilarQueries [cq1, cq2] := by decide
  have h := (c1_grouping [cq1, cq2]).1 cg hmem
  exact ⟨h.1, h.2.1, h.2.2.2.1⟩

/-- C3 amended: the grouper's output is sorted by priorityScore
descending, and groups with equal scores appear in first-seen (insertion)
order of their signatures — the order the signatures first occurred in
the input — not in ascending signature order. -/
theorem c3_output_order (qs : List MonitorQuery) :
    List.Sorted groupGE (groupSimilarQueries qs) ∧
    (∀ g1 g2 : QueryGroup, List.Sublist [g1, g2] (finalizedGroups qs) →
      g1.priority_score = g2.priority_score →
      List.Sublist [g1, g2] (groupSimilarQueries qs)) := by
  constructor
  · exact List.sorted_insertionSort groupGE (finalizedGroups qs)
  · intro g1 g2 hsub heq
    exact List.pair_sublist_insertionSort (le_of_eq heq.symm) hsub

def cqA : MonitorQuery :=
  { sql_id := "sqlA", sql_text := "SELECT * FROM A", executions := 1,
    elapsed_time := 0, tables := ["A"], where_conditions := [],
    schema := none }

def cqB : MonitorQuery :=
  { sql_id := "sqlB", sql_text := "SELECT * FROM B", executions := 1,
    elapsed_time := 0, tables := ["B"], where_conditions := [],
    schema := none }

unseal Rat.add Rat.sub Rat.mul Rat.inv in
/-- C3 counterexample: two groups tie at priority 0.6; the output keeps
them in first-seen order, whose signatures are strictly *descending* —
refuting the claimed ascending-signature tie-break. -/
theorem c3_counterexample :
    (groupSimilarQueries [cqA, cqB]).map (fun g => g.group_key) =
      ["d58694f69cf59eae2104830a252dea9b", "bdf3e53dd66568f21509dfbd5f66f805"] ∧
    (groupSimilarQueries [cqA, cqB]).map (fun g => g.priority_score) =
      [3/5, 3/5] ∧
    strLtB ("bdf3e53dd66568f21509dfbd5f66f805").data
      ("d58694f69cf59eae2104830a252dea9b").data = true :=
  ⟨by decide, by decide, by decide⟩

def gA : QueryGroup :=
  { group_key := "d58694f69cf59eae2104830a252dea9b"
    sample_sql := "SELECT * FROM A"
    normalized_key := "['A'] WHERE []"
    count := 1
    total_exec_time := 0
    tables := ["A"]
    schemas := []
    where_conditions := []
    avg_exec_time := 0
    priority_score := 3/5
    sql_ids := ["sqlA"] }

def gB : QueryGroup :=
  { group_key := "bdf3e53dd66568f21509dfbd5f66f805"
    sample_sql := "SELECT * FROM B"
    normalized_key := "['B'] WHERE []"
    count := 1
    total_exec_time := 0
    tables := ["B"]
    schemas := []
    where_conditions := []
    avg_exec_time := 0
    priority_score := 3/5
    sql_ids := ["sqlB"] }

unseal Rat.add Rat.sub Rat.mul Rat.inv in
/-- C3 witness: the stability clause applied to the concrete tie. -/
theorem c3_witness :
    List.Sublist [gA, gB] (groupSimilarQueries [cqA, cqB]) := by
  have hfin : finalizedGroups [cqA, cqB] = [gA, gB] := by decide
  exact (c3_output_order [cqA, cqB]).2 gA gB
    (by rw [hfin]) (by decide)

/-- C10: every returned query group has `count ≥ 1` and exactly `count`
collected `sql_ids`, so the finalization division `total / count` is
well-defined despite the absence of an explicit guard. -/
theorem c10_group_count_safety (qs : List MonitorQuery) (g : QueryGroup)
    (hg : g ∈ groupSimilarQueries qs) :
    1 ≤ g.count ∧ g.sql_ids.length = g.count := by
  obtain ⟨_, hstats, _⟩ := finalizedGroups_spec qs
  rw [mem_groupSimilarQueries_iff] at hg
  obtain ⟨hc, _, hids, hpos, _, _⟩ := hstats g hg
  refine ⟨hpos, ?_⟩
  rw [hids, List.length_map, hc]

unseal Rat.add Rat.sub Rat.mul Rat.inv in
/-- C10 witness. -/
theorem c10_witness : 1 ≤ cg.count ∧ cg.sql_ids.length = cg.count :=
  c10_group_count_safety [cq1, cq2] cg (by decide)

end MonOracle
